import Mathlib

/-!
Shallow embedding of the force-directed supply-chain physics engine in
`src/SupplyChainGraph.js` (component `usePhysicsEngine` and the
`SupplyChainGraph` event handlers).

Modelling conventions:
* JS numbers are modelled as exact rationals (`ℚ`).
* `Math.sqrt` has no exact rational counterpart, so every square root the
  code takes is characterised relationally by `IsSqrt a b` (`b ≥ 0` and
  `b * b = a`); stateful phases that take square roots become relations.
* The one place where the JS code can produce a non-finite number
  (`NaN`/`Infinity`) that the claims talk about — division by a zero
  distance and its propagation through the integrator — is modelled by an
  `Option ℚ` semantics (`none` = non-finite), mirroring the source
  operations including JS's "NaN comparisons are false" rule.
-/

namespace SupplyChainGraph

/-- Physics constants, `SupplyChainGraph.js` lines 11-18. -/
def COULOMB_CONSTANT : ℚ := 5000

/-- Spring stiffness (0.05). -/
def HOOKE_CONSTANT : ℚ := 1/20

/-- Rest length of springs. -/
def SPRING_LENGTH : ℚ := 120

/-- Velocity damping factor (0.92). -/
def DAMPING : ℚ := 23/25

/-- Maximum velocity cap. -/
def MAX_VELOCITY : ℚ := 15

/-- Fixed timestep (0.016). -/
def TIME_STEP : ℚ := 2/125

/-- Shockwave energy decay per frame (0.95). -/
def SHOCKWAVE_DECAY : ℚ := 19/20

/-- Threshold for high stress nodes (0.7). -/
def STRESS_THRESHOLD : ℚ := 7/10

/-- A construction-time node record `{id, type, x, y, stress, label}`
(the shape of the `INITIAL_NODES` entries, lines 32-44). -/
structure InitNode where
  id : Nat
  type : String
  x : ℚ
  y : ℚ
  stress : ℚ
  label : String
deriving DecidableEq

/-- A live physics node as built in `usePhysicsEngine` (lines 76-83):
the construction record plus velocity, acceleration and derived mass. -/
structure Node where
  id : Nat
  type : String
  x : ℚ
  y : ℚ
  stress : ℚ
  label : String
  vx : ℚ
  vy : ℚ
  ax : ℚ
  ay : ℚ
  mass : ℚ
deriving DecidableEq

/-- An edge `{source, target}` (indices into the node array, as the code
uses `allNodes[edge.source]`); some literals also carry an `id`. -/
structure Edge where
  source : Nat
  target : Nat
  id : Option Nat := none
deriving DecidableEq

/-- A shockwave `{x, y, force, age}` (`triggerShockwave`, lines 300-307). -/
structure Shockwave where
  x : ℚ
  y : ℚ
  force : ℚ
  age : Nat
deriving DecidableEq

/-- The mutable physics state `physicsState.current` (lines 75-87). -/
structure PState where
  nodes : List Node
  edges : List Edge
  shockwaves : List Shockwave
  running : Bool
deriving DecidableEq

/-- Construction of one live node (lines 76-83): zero velocity and
acceleration, `mass = 1 + stress * 0.5`. -/
def mkNode (n : InitNode) : Node :=
  { id := n.id, type := n.type, x := n.x, y := n.y, stress := n.stress,
    label := n.label, vx := 0, vy := 0, ax := 0, ay := 0,
    mass := 1 + n.stress * (1/2) }

/-- Construction of the whole physics state (lines 75-87). -/
def initState (ns : List InitNode) (es : List Edge) : PState :=
  { nodes := ns.map mkNode, edges := es, shockwaves := [], running := true }

/-- The literal `INITIAL_NODES` list (lines 32-44). -/
def INITIAL_NODES : List InitNode :=
  [ ⟨0, "SUPPLIER", 400, 100, 1/5, "Raw Materials S1"⟩,
    ⟨1, "SUPPLIER", 600, 100, 2/5, "Raw Materials S2"⟩,
    ⟨2, "SUPPLIER", 500, 200, 1/10, "Raw Materials S3"⟩,
    ⟨3, "WAREHOUSE", 300, 350, 3/5, "Central Hub W1"⟩,
    ⟨4, "WAREHOUSE", 700, 350, 3/10, "Central Hub W2"⟩,
    ⟨5, "WAREHOUSE", 500, 450, 4/5, "Distribution D1"⟩,
    ⟨6, "RETAILER", 150, 550, 1/5, "Store R1"⟩,
    ⟨7, "RETAILER", 350, 550, 1/2, "Store R2"⟩,
    ⟨8, "RETAILER", 500, 580, 2/5, "Store R3"⟩,
    ⟨9, "RETAILER", 650, 550, 3/10, "Store R4"⟩,
    ⟨10, "RETAILER", 800, 520, 7/10, "Store R5"⟩ ]

/-- The literal `INITIAL_EDGES` list (lines 46-67). -/
def INITIAL_EDGES : List Edge :=
  [ ⟨0, 3, none⟩, ⟨0, 2, none⟩, ⟨1, 2, none⟩, ⟨1, 4, none⟩,
    ⟨2, 3, none⟩, ⟨2, 4, none⟩, ⟨2, 5, none⟩, ⟨3, 5, none⟩,
    ⟨3, 6, none⟩, ⟨3, 7, none⟩, ⟨4, 5, none⟩, ⟨4, 9, none⟩,
    ⟨4, 10, none⟩, ⟨5, 7, none⟩, ⟨5, 8, none⟩, ⟨5, 9, none⟩,
    ⟨6, 7, some 16⟩, ⟨7, 8, some 17⟩, ⟨8, 9, some 18⟩, ⟨9, 10, some 19⟩ ]

/-- `IsSqrt a b`: `b` is the (nonnegative) square root of `a`; this is how
each `Math.sqrt` call is characterised in the relational step. -/
def IsSqrt (a b : ℚ) : Prop := 0 ≤ b ∧ b * b = a

instance (a b : ℚ) : Decidable (IsSqrt a b) :=
  inferInstanceAs (Decidable (0 ≤ b ∧ b * b = a))

/-- Squared distance from `node` to `other`, the argument of the
`Math.sqrt` call on line 118. -/
def coulombSq (node other : Node) : ℚ :=
  (node.x - other.x) * (node.x - other.x) + (node.y - other.y) * (node.y - other.y)

/-- Loop body of `calculateCoulombRepulsion` (lines 112-127): contribution
of `other` to `node`, where `d` is the Euclidean distance between them
(supplied relationally via `IsSqrt (coulombSq node other) d`). -/
def coulombPair (node other : Node) (d : ℚ) : ℚ × ℚ :=
  let dx := node.x - other.x
  let dy := node.y - other.y
  let dist := d + 1
  let stressFactor := 1 + node.stress * STRESS_THRESHOLD
  let force := COULOMB_CONSTANT * stressFactor / (dist * dist)
  (dx / dist * force, dy / dist * force)

/-- Squared distance from `source` to `target` of an edge, the argument of
the `Math.sqrt` call on line 139. -/
def hookeSq (source target : Node) : ℚ :=
  (target.x - source.x) * (target.x - source.x) + (target.y - source.y) * (target.y - source.y)

/-- `calculateHookeAttraction` (lines 133-149), with `d` the distance
(`IsSqrt (hookeSq source target) d`).  When `d = 0` the JS source divides
`0 / 0`, producing `NaN` force components; that non-finite outcome is
modelled as `none`.  Otherwise the result is `(fx, fy, tension)`. -/
def calculateHookeAttraction (source target : Node) (d : ℚ) : Option (ℚ × ℚ × ℚ) :=
  let dx := target.x - source.x
  let dy := target.y - source.y
  let displacement := d - SPRING_LENGTH
  let force := HOOKE_CONSTANT * displacement
  if d = 0 then none
  else some (dx / d * force, dy / d * force, |displacement|)

/-- `calculateBoundaryForces` (lines 152-163): linear restoring force
within `margin = 50` of each viewport edge, stiffness `0.1`. -/
def calculateBoundaryForces (width height : ℚ) (node : Node) : ℚ × ℚ :=
  let margin : ℚ := 50
  let boundaryK : ℚ := 1/10
  let fx1 := if node.x < margin then (margin - node.x) * boundaryK else 0
  let fx2 := if node.x > width - margin then (width - margin - node.x) * boundaryK else 0
  let fy1 := if node.y < margin then (margin - node.y) * boundaryK else 0
  let fy2 := if node.y > height - margin then (height - margin - node.y) * boundaryK else 0
  (fx1 + fx2, fy1 + fy2)

/-- Squared distance from `node` to a shockwave origin, the argument of
the `Math.sqrt` call on line 172. -/
def shockSq (node : Node) (sw : Shockwave) : ℚ :=
  (node.x - sw.x) * (node.x - sw.x) + (node.y - sw.y) * (node.y - sw.y)

/-- Loop body of `applyShockwaves` (lines 169-180): contribution of one
shockwave to `node`, with `d` the distance to its origin. -/
def shockPair (node : Node) (sw : Shockwave) (d : ℚ) : ℚ × ℚ :=
  let dx := node.x - sw.x
  let dy := node.y - sw.y
  let dist := d + 1
  let impact := sw.force / (dist * dist)
  let decay := SHOCKWAVE_DECAY ^ sw.age
  (dx / dist * impact * decay, dy / dist * impact * decay)

/-- Relational accumulation of per-element `(fx, fy)` contributions over a
list, where each element needs a square root (`IsSqrt (sq a) d`) before
its contribution `f a d` is added.  Used for the repulsion loop (summing
over the other nodes) and the shockwave loop (summing over shockwaves). -/
inductive SqSum {α : Type} (sq : α → ℚ) (f : α → ℚ → ℚ × ℚ) : List α → ℚ × ℚ → Prop where
  | nil : SqSum sq f [] (0, 0)
  | cons {a : α} {rest : List α} {d : ℚ} {s : ℚ × ℚ} :
      IsSqrt (sq a) d → SqSum sq f rest s →
      SqSum sq f (a :: rest) ((f a d).1 + s.1, (f a d).2 + s.2)

/-- Apply a function to the element at index `i` (used to model in-place
mutation of `nodes[i]`). -/
def modifyAt (f : Node → Node) : List Node → Nat → List Node
  | [], _ => []
  | n :: ns, 0 => f n :: ns
  | n :: ns, i + 1 => n :: modifyAt f ns i

/-- `nodes[i].ax += fx; nodes[i].ay += fy`. -/
def addForce (ns : List Node) (i : Nat) (fx fy : ℚ) : List Node :=
  modifyAt (fun n => { n with ax := n.ax + fx, ay := n.ay + fy }) ns i

/-- Phase of `simulationStep` at lines 192-195: reset accelerations. -/
def resetAccel (ns : List Node) : List Node :=
  ns.map fun n => { n with ax := 0, ay := 0 }

/-- Phase of `simulationStep` at lines 198-202: every node `i` gains the
summed Coulomb repulsion from all other nodes (the code's loop skips only
the index `i` itself, i.e. sums over `ns.eraseIdx i` in order). -/
def CoulombPhase (ns ns' : List Node) : Prop :=
  ns'.length = ns.length ∧
  ∀ i n, ns.get? i = some n →
    ∃ fx fy, SqSum (coulombSq n) (coulombPair n) (ns.eraseIdx i) (fx, fy) ∧
      ns'.get? i = some { n with ax := n.ax + fx, ay := n.ay + fy }

/-- Phase of `simulationStep` at lines 205-212: fold over the edge list,
adding each spring force to the source node and its opposite to the
target node, accumulating tension.  Requires every edge's force to be
finite (`calculateHookeAttraction … = some _`); a zero-length edge makes
the JS step produce `NaN` instead (see the corruption semantics below). -/
inductive HookeFold : List Edge → List Node → ℚ → List Node → ℚ → Prop where
  | nil (ns : List Node) (t : ℚ) : HookeFold [] ns t ns t
  | cons {e : Edge} {es : List Edge} {ns out : List Node} {src tgt : Node}
      {d fx fy tens t tout : ℚ} :
      ns.get? e.source = some src →
      ns.get? e.target = some tgt →
      IsSqrt (hookeSq src tgt) d →
      calculateHookeAttraction src tgt d = some (fx, fy, tens) →
      HookeFold es (addForce (addForce ns e.source fx fy) e.target (-fx) (-fy)) (t + tens) out tout →
      HookeFold (e :: es) ns t out tout

/-- Phase of `simulationStep` at lines 215-219: boundary forces. -/
def boundaryPhase (width height : ℚ) (ns : List Node) : List Node :=
  ns.map fun n =>
    { n with ax := n.ax + (calculateBoundaryForces width height n).1,
             ay := n.ay + (calculateBoundaryForces width height n).2 }

/-- Phase of `simulationStep` at lines 222-226: every node gains the
summed forces of all active shockwaves. -/
def ShockPhase (sws : List Shockwave) (ns ns' : List Node) : Prop :=
  ns'.length = ns.length ∧
  ∀ i n, ns.get? i = some n →
    ∃ fx fy, SqSum (shockSq n) (shockPair n) sws (fx, fy) ∧
      ns'.get? i = some { n with ax := n.ax + fx, ay := n.ay + fy }

/-- Squared speed after acceleration and damping have been applied — the
argument of the `Math.sqrt` call on line 239. -/
def speedSq (node : Node) : ℚ :=
  let vx1 := (node.vx + node.ax * TIME_STEP) * DAMPING
  let vy1 := (node.vy + node.ay * TIME_STEP) * DAMPING
  vx1 * vx1 + vy1 * vy1

/-- Integration body, lines 229-247: accelerate, damp, clamp to
`MAX_VELOCITY` (given `speed`, the square root of `speedSq node`), then
move the position by the new velocity. -/
def integrateNode (node : Node) (speed : ℚ) : Node :=
  let vx1 := (node.vx + node.ax * TIME_STEP) * DAMPING
  let vy1 := (node.vy + node.ay * TIME_STEP) * DAMPING
  let vx2 := if MAX_VELOCITY < speed then vx1 / speed * MAX_VELOCITY else vx1
  let vy2 := if MAX_VELOCITY < speed then vy1 / speed * MAX_VELOCITY else vy1
  { node with vx := vx2, vy := vy2,
              x := node.x + vx2 * TIME_STEP,
              y := node.y + vy2 * TIME_STEP }

/-- One node's integration step, with the square root characterised
relationally. -/
def IntegrateRel (node node' : Node) : Prop :=
  ∃ speed, IsSqrt (speedSq node) speed ∧ node' = integrateNode node speed

/-- Phase of `simulationStep` at lines 229-251: integrate every node. -/
def IntegratePhase (ns ns' : List Node) : Prop :=
  ns'.length = ns.length ∧
  ∀ i n, ns.get? i = some n → ∃ n', IntegrateRel n n' ∧ ns'.get? i = some n'

/-- Shockwave aging and pruning, lines 253-256: increment every age, then
keep a shockwave iff `sw.force > 0.1 && sw.age < 300`.  Note the filter
tests the stored `force` field, which is never decayed. -/
def stepShockwaves (sws : List Shockwave) : List Shockwave :=
  (sws.map fun sw => { sw with age := sw.age + 1 }).filter
    fun sw => decide (1/10 < sw.force) && decide (sw.age < 300)

/-- One full `simulationStep` (lines 186-276) as a relation between
states: reset accelerations, accumulate repulsion, spring, boundary and
shockwave forces, integrate, and age/prune the shockwave list.  Edges and
the running flag are untouched. -/
def StepRel (width height : ℚ) (s s' : PState) : Prop :=
  ∃ ns2 ns3 ns5 tension,
    CoulombPhase (resetAccel s.nodes) ns2 ∧
    HookeFold s.edges ns2 0 ns3 tension ∧
    ShockPhase s.shockwaves (boundaryPhase width height ns3) ns5 ∧
    IntegratePhase ns5 s'.nodes ∧
    s'.edges = s.edges ∧
    s'.shockwaves = stepShockwaves s.shockwaves ∧
    s'.running = s.running

/-- Zero or more simulation steps. -/
def Reachable (width height : ℚ) : PState → PState → Prop :=
  Relation.ReflTransGen (StepRel width height)

/-- `triggerShockwave(x, y, force)` (lines 300-307): push a fresh
shockwave with `age = 0`. -/
def triggerShockwave (x y force : ℚ) (s : PState) : PState :=
  { s with shockwaves := s.shockwaves ++ [{ x := x, y := y, force := force, age := 0 }] }

/-- The Reset Network button handler (lines 653-661): restore each node's
position from `INITIAL_NODES[i]`, zero its velocity, clear shockwaves. -/
def resetNetwork (init : List InitNode) (s : PState) : PState :=
  { s with
    nodes := List.zipWith (fun n n0 => { n with x := n0.x, y := n0.y, vx := 0, vy := 0 })
      s.nodes init,
    shockwaves := [] }

/-- Helper for `randomizeStress`: walk the node list assigning each node
the stress `rand i` for its position `i`, recomputing mass. -/
def randomizeFrom (rand : Nat → ℚ) : Nat → List Node → List Node
  | _, [] => []
  | i, n :: ns =>
    { n with stress := rand i, mass := 1 + rand i * (1/2) } :: randomizeFrom rand (i + 1) ns

/-- The Randomize Stress button handler (lines 668-673): each node gets a
fresh stress (`Math.random()`, modelled as a stream `rand` indexed by node
position) and its mass is recomputed as `1 + stress * 0.5`. -/
def randomizeStress (rand : Nat → ℚ) (s : PState) : PState :=
  { s with nodes := randomizeFrom rand 0 s.nodes }

/-! ### UI drag interaction (`SupplyChainGraph` component, lines 342-420)

`draggingNode` is a React state holding the node *snapshot* captured by
`handleNodeMouseDown`; `handleMouseMove` moves the live physics node and
fires 500-force shockwaves, and `handleMouseUp` fires the final
2000-force shockwave at the coordinates stored in the captured snapshot.
-/

/-- The node snapshot captured at mouse-down (`setDraggingNode(node)`,
line 375): the rendered node's id and its position at capture time. -/
structure DragSnap where
  id : Nat
  x : ℚ
  y : ℚ
deriving DecidableEq

/-- The component-level state the drag handlers read and write. -/
structure UIState where
  phys : PState
  draggingNode : Option DragSnap
  dragOffset : ℚ × ℚ
deriving DecidableEq

/-- `handleNodeMouseDown` (lines 372-380): capture the snapshot and the
offset between the mouse and the node. -/
def handleNodeMouseDown (clientX clientY : ℚ) (node : DragSnap) (u : UIState) : UIState :=
  { u with draggingNode := some node,
           dragOffset := (clientX - node.x, clientY - node.y) }

/-- Set the position and zero the velocity of the first node with the
given id (lines 390-396: `findIndex` then direct field writes). -/
def setNodePos (ns : List Node) (nid : Nat) (nx ny : ℚ) : List Node :=
  match ns.findIdx? (fun n => n.id == nid) with
  | some i => modifyAt (fun n => { n with x := nx, y := ny, vx := 0, vy := 0 }) ns i
  | none => ns

/-- `handleMouseMove` (lines 383-401): while dragging, pin the node to the
mouse position (position overwritten, velocity zeroed) and trigger a
500-force shockwave there. -/
def handleMouseMove (clientX clientY rectLeft rectTop : ℚ) (u : UIState) : UIState :=
  match u.draggingNode with
  | none => u
  | some d =>
    let newX := clientX - rectLeft - u.dragOffset.1
    let newY := clientY - rectTop - u.dragOffset.2
    let pinned : PState := { u.phys with nodes := setNodePos u.phys.nodes d.id newX newY }
    { u with phys := triggerShockwave newX newY 500 pinned }

/-- `handleMouseUp` (lines 404-410): if a drag is active, trigger the
final 2000-force shockwave at the coordinates stored in the captured
`draggingNode` snapshot, then clear the drag. -/
def handleMouseUp (u : UIState) : UIState :=
  match u.draggingNode with
  | none => u
  | some d =>
    { u with phys := triggerShockwave d.x d.y 2000 u.phys,
             draggingNode := none }

/-! ### Non-finite (NaN/Infinity) propagation semantics

`Val := Option ℚ` with `none` standing for a non-finite JS number.  The
operations mirror the JS float operations on the corruption path: any
arithmetic on a non-finite operand is non-finite, division by zero is
non-finite, and an ordered comparison involving `NaN` is `false` (so the
velocity clamp's `speed > MAX_VELOCITY` test does *not* fire on a `NaN`
speed). -/

/-- A JS number that may be non-finite. -/
def Val : Type := Option ℚ

instance : DecidableEq Val := inferInstanceAs (DecidableEq (Option ℚ))

/-- Finite rational as a `Val`. -/
def fin (q : ℚ) : Val := some q

/-- Addition; non-finite operands propagate. -/
def vadd : Val → Val → Val
  | some a, some b => some (a + b)
  | _, _ => none

/-- Multiplication; non-finite operands propagate (on the corruption path
considered here no `0 * Infinity` arises, the offending value is `NaN`). -/
def vmul : Val → Val → Val
  | some a, some b => some (a * b)
  | _, _ => none

/-- Division; division by zero yields a non-finite value (`0/0` is `NaN`,
`x/0` is `±Infinity`), and non-finite operands propagate. -/
def vdiv : Val → Val → Val
  | some a, some b => if b = 0 then none else some (a / b)
  | _, _ => none

/-- JS `>` comparison: `false` whenever an operand is `NaN` (the only
non-finite value arising on the modelled corruption path). -/
def vgt : Val → Val → Bool
  | some a, some b => decide (b < a)
  | _, _ => false

/-- A node's kinematic fields in the non-finite-tracking semantics. -/
structure NodeN where
  x : Val
  y : Val
  vx : Val
  vy : Val
  ax : Val
  ay : Val
deriving DecidableEq

/-- The integration body (lines 229-247) in the non-finite-tracking
semantics; `speed` is the result of the `Math.sqrt` on line 239 (supplied
relationally, `none` exactly when the squared speed is non-finite, since
the squared speed is nonnegative whenever finite here). -/
def integrateNodeN (node : NodeN) (speed : Val) : NodeN :=
  let vx1 := vmul (vadd node.vx (vmul node.ax (fin TIME_STEP))) (fin DAMPING)
  let vy1 := vmul (vadd node.vy (vmul node.ay (fin TIME_STEP))) (fin DAMPING)
  let clamp := vgt speed (fin MAX_VELOCITY)
  let vx2 := if clamp then vmul (vdiv vx1 speed) (fin MAX_VELOCITY) else vx1
  let vy2 := if clamp then vmul (vdiv vy1 speed) (fin MAX_VELOCITY) else vy1
  { node with vx := vx2, vy := vy2,
              x := vadd node.x (vmul vx2 (fin TIME_STEP)),
              y := vadd node.y (vmul vy2 (fin TIME_STEP)) }

/-- Square root in the non-finite semantics: `NaN` inputs give `NaN`
(`Math.sqrt(NaN)` is `NaN`); finite nonnegative inputs have their exact
root. -/
def IsSqrtN : Val → Val → Prop
  | some a, some b => IsSqrt a b
  | none, none => True
  | _, _ => False

/-! ### Invariant and frame predicates -/

/-- The node fields the simulation step never writes. -/
def Preserve (n n' : Node) : Prop :=
  n'.id = n.id ∧ n'.type = n.type ∧ n'.stress = n.stress ∧
  n'.mass = n.mass ∧ n'.label = n.label

/-- Positionwise frame preservation between two node lists: same length,
and the node at each index keeps its id, type, stress, mass and label. -/
def FramePres (ns ns' : List Node) : Prop :=
  ns'.length = ns.length ∧
  ∀ i n, ns.get? i = some n → ∃ n', ns'.get? i = some n' ∧ Preserve n n'

/-- The derived-mass invariant: every node's mass is `1 + stress * 0.5`. -/
def MassInv (s : PState) : Prop :=
  ∀ n ∈ s.nodes, n.mass = 1 + n.stress * (1/2)

/-! ### Concrete inputs used by the witnesses and counterexamples -/

/-- A single-node construction input sitting well inside a 1000×700
viewport (it is node 0 of `INITIAL_NODES`). -/
def exInit : InitNode := ⟨0, "SUPPLIER", 400, 100, 1/5, "Raw Materials S1"⟩

/-- The state built from `exInit` alone: one node, no edges, no
shockwaves.  A full simulation step maps this state to itself. -/
def exState : PState := initState [exInit] []

/-- Repulsion counterexample: the node receiving the force, at the
origin with zero stress. -/
def c5Node : Node :=
  { id := 0, type := "SUPPLIER", x := 0, y := 0, stress := 0, label := "N0",
    vx := 0, vy := 0, ax := 0, ay := 0, mass := 1 }

/-- Repulsion counterexample: the other node, at distance 5. -/
def c5Other : Node := { c5Node with id := 1, x := 3, y := 4 }

/-- A node used to witness the amended repulsion claim: `c5Node` moved so
that `c5Other`-style displacement is `(3, 4)` from the other node. -/
def c5Node' : Node := { c5Node with x := 3, y := 4 }

/-- Two coincident nodes joined by an edge (zero spring length). -/
def cnA : Node := { c5Node with x := 250, y := 250 }

/-- The second coincident node. -/
def cnB : Node := { c5Node with id := 1, x := 250, y := 250 }

/-- A second coincident pair (at `(100, 100)`) used for the numerical
corruption scenario. -/
def cnC : Node := { c5Node with x := 100, y := 100 }

/-- The other node of the second coincident pair. -/
def cnD : Node := { c5Node with id := 1, x := 100, y := 100 }

/-- A node whose acceleration has already become non-finite (as produced
by the zero-distance spring force between `cnC` and `cnD`), in the
non-finite semantics. -/
def corruptN : NodeN :=
  { x := fin 100, y := fin 100, vx := fin 0, vy := fin 0, ax := none, ay := none }

/-- Integration witness input: damped velocity `(12, 16)`, speed 20,
so the clamp branch fires. -/
def exNode7 : Node :=
  { c5Node with vx := 300/23, vy := 400/23 }

/-- UI state before the drag: the single node of `exState`. -/
def dragInit : UIState :=
  { phys := exState, draggingNode := none, dragOffset := (0, 0) }

/-- Mouse-down at `(400, 100)` on node 0 (its rendered snapshot). -/
def dragDown : UIState := handleNodeMouseDown 400 100 ⟨0, 400, 100⟩ dragInit

/-- Mouse-move to `(500, 300)` (container rect at the origin). -/
def dragMove : UIState := handleMouseMove 500 300 0 0 dragDown

/-- Mouse-up: the release. -/
def dragUp : UIState := handleMouseUp dragMove

/-- A scrambled one-node state used to witness `reset`: the node of
`exState` displaced with nonzero velocity and a live shockwave. -/
def scrambled : PState :=
  { nodes := [{ mkNode exInit with x := 777, y := 888, vx := 3, vy := -4 }],
    edges := [], shockwaves := [⟨10, 10, 1000, 5⟩], running := true }

/-! ### Helper lemmas -/

theorem preserve_refl (n : Node) : Preserve n n := ⟨rfl, rfl, rfl, rfl, rfl⟩

theorem preserve_trans {a b c : Node} (h1 : Preserve a b) (h2 : Preserve b c) :
    Preserve a c := by
  obtain ⟨h1a, h1b, h1c, h1d, h1e⟩ := h1
  obtain ⟨h2a, h2b, h2c, h2d, h2e⟩ := h2
  exact ⟨h2a.trans h1a, h2b.trans h1b, h2c.trans h1c, h2d.trans h1d, h2e.trans h1e⟩

theorem isSqrt_zero {d : ℚ} (h : IsSqrt 0 d) : d = 0 := by
  have := h.2
  exact mul_self_eq_zero.mp this

theorem framePres_refl (ns : List Node) : FramePres ns ns :=
  ⟨rfl, fun _ n h => ⟨n, h, preserve_refl n⟩⟩

theorem framePres_trans {a b c : List Node} (h1 : FramePres a b) (h2 : FramePres b c) :
    FramePres a c := by
  refine ⟨h2.1.trans h1.1, fun i n hget => ?_⟩
  obtain ⟨n', hget', hp'⟩ := h1.2 i n hget
  obtain ⟨n'', hget'', hp''⟩ := h2.2 i n' hget'
  exact ⟨n'', hget'', preserve_trans hp' hp''⟩

theorem framePres_map (f : Node → Node) (hf : ∀ n, Preserve n (f n)) (ns : List Node) :
    FramePres ns (ns.map f) := by
  refine ⟨ns.length_map f, fun i n hget => ?_⟩
  refine ⟨f n, ?_, hf n⟩
  rw [List.get?_map, hget, Option.map_some']

theorem length_modifyAt (f : Node → Node) (ns : List Node) (i : Nat) :
    (modifyAt f ns i).length = ns.length := by
  induction ns generalizing i with
  | nil => rfl
  | cons n ns ih =>
    cases i with
    | zero => rfl
    | succ i => simpa [modifyAt] using ih i

theorem get?_modifyAt (f : Node → Node) (ns : List Node) (i j : Nat) :
    (modifyAt f ns i).get? j = if i = j then (ns.get? j).map f else ns.get? j := by
  induction ns generalizing i j with
  | nil => simp [modifyAt]
  | cons n ns ih =>
    cases i with
    | zero =>
      cases j with
      | zero => simp [modifyAt]
      | succ j => simp [modifyAt]
    | succ i =>
      cases j with
      | zero => simp [modifyAt]
      | succ j => simpa [modifyAt, Nat.succ_inj] using ih i j

theorem framePres_modifyAt (f : Node → Node) (hf : ∀ n, Preserve n (f n))
    (ns : List Node) (i : Nat) : FramePres ns (modifyAt f ns i) := by
  refine ⟨length_modifyAt f ns i, fun j n hget => ?_⟩
  rw [get?_modifyAt]
  by_cases hij : i = j
  · refine ⟨f n, ?_, hf n⟩
    rw [if_pos hij, hget, Option.map_some']
  · refine ⟨n, ?_, preserve_refl n⟩
    rw [if_neg hij]
    exact hget

theorem framePres_addForce (ns : List Node) (i : Nat) (fx fy : ℚ) :
    FramePres ns (addForce ns i fx fy) :=
  framePres_modifyAt (fun n => { n with ax := n.ax + fx, ay := n.ay + fy })
    (fun n => ⟨rfl, rfl, rfl, rfl, rfl⟩) ns i

theorem framePres_resetAccel (ns : List Node) : FramePres ns (resetAccel ns) :=
  framePres_map (fun n => { n with ax := 0, ay := 0 })
    (fun n => ⟨rfl, rfl, rfl, rfl, rfl⟩) ns

theorem framePres_coulomb {ns ns' : List Node} (h : CoulombPhase ns ns') :
    FramePres ns ns' := by
  refine ⟨h.1, fun i n hget => ?_⟩
  obtain ⟨fx, fy, _, hget'⟩ := h.2 i n hget
  exact ⟨_, hget', ⟨rfl, rfl, rfl, rfl, rfl⟩⟩

theorem framePres_shock {sws : List Shockwave} {ns ns' : List Node}
    (h : ShockPhase sws ns ns') : FramePres ns ns' := by
  refine ⟨h.1, fun i n hget => ?_⟩
  obtain ⟨fx, fy, _, hget'⟩ := h.2 i n hget
  exact ⟨_, hget', ⟨rfl, rfl, rfl, rfl, rfl⟩⟩

theorem preserve_integrateNode (n : Node) (speed : ℚ) :
    Preserve n (integrateNode n speed) := ⟨rfl, rfl, rfl, rfl, rfl⟩

theorem framePres_integrate {ns ns' : List Node} (h : IntegratePhase ns ns') :
    FramePres ns ns' := by
  refine ⟨h.1, fun i n hget => ?_⟩
  obtain ⟨n', ⟨speed, _, rfl⟩, hget'⟩ := h.2 i n hget
  exact ⟨_, hget', preserve_integrateNode n speed⟩

theorem framePres_boundary (w h : ℚ) (ns : List Node) :
    FramePres ns (boundaryPhase w h ns) :=
  framePres_map
    (fun n => { n with ax := n.ax + (calculateBoundaryForces w h n).1,
                       ay := n.ay + (calculateBoundaryForces w h n).2 })
    (fun n => ⟨rfl, rfl, rfl, rfl, rfl⟩) ns

theorem framePres_hookeFold {es : List Edge} {ns out : List Node} {t tout : ℚ}
    (h : HookeFold es ns t out tout) : FramePres ns out := by
  induction h with
  | nil ns t => exact framePres_refl ns
  | cons hsrc htgt hsq hforce _ ih =>
    exact framePres_trans
      (framePres_trans (framePres_addForce _ _ _ _) (framePres_addForce _ _ _ _)) ih

theorem integrateNode_vx (n : Node) (speed : ℚ) :
    (integrateNode n speed).vx =
      if MAX_VELOCITY < speed
      then (n.vx + n.ax * TIME_STEP) * DAMPING / speed * MAX_VELOCITY
      else (n.vx + n.ax * TIME_STEP) * DAMPING := rfl

theorem integrateNode_vy (n : Node) (speed : ℚ) :
    (integrateNode n speed).vy =
      if MAX_VELOCITY < speed
      then (n.vy + n.ay * TIME_STEP) * DAMPING / speed * MAX_VELOCITY
      else (n.vy + n.ay * TIME_STEP) * DAMPING := rfl

theorem integrateNode_x (n : Node) (speed : ℚ) :
    (integrateNode n speed).x = n.x + (integrateNode n speed).vx * TIME_STEP := rfl

theorem integrateNode_y (n : Node) (speed : ℚ) :
    (integrateNode n speed).y = n.y + (integrateNode n speed).vy * TIME_STEP := rfl

theorem speedSq_eq (n : Node) :
    speedSq n = (n.vx + n.ax * TIME_STEP) * DAMPING * ((n.vx + n.ax * TIME_STEP) * DAMPING)
      + (n.vy + n.ay * TIME_STEP) * DAMPING * ((n.vy + n.ay * TIME_STEP) * DAMPING) := rfl

theorem speed_pos_of_clamp {speed : ℚ} (hc : MAX_VELOCITY < speed) : 0 < speed := by
  have h15 : (0 : ℚ) < MAX_VELOCITY := by norm_num [MAX_VELOCITY]
  exact lt_trans h15 hc

theorem clamp_magnitude {vx1 vy1 speed : ℚ} (hs0 : speed ≠ 0)
    (hsq : speed * speed = vx1 * vx1 + vy1 * vy1) :
    vx1 / speed * MAX_VELOCITY * (vx1 / speed * MAX_VELOCITY)
      + vy1 / speed * MAX_VELOCITY * (vy1 / speed * MAX_VELOCITY)
      = MAX_VELOCITY * MAX_VELOCITY := by
  have expand : vx1 / speed * MAX_VELOCITY * (vx1 / speed * MAX_VELOCITY)
      + vy1 / speed * MAX_VELOCITY * (vy1 / speed * MAX_VELOCITY)
      = (vx1 * vx1 + vy1 * vy1) * (MAX_VELOCITY * MAX_VELOCITY) / (speed * speed) := by
    field_simp
    ring
  have hss : speed * speed ≠ 0 := mul_ne_zero hs0 hs0
  rw [expand, ← hsq, mul_comm, mul_div_assoc, div_self hss, mul_one]

theorem integrate_vel_bound {n n' : Node} (h : IntegrateRel n n') :
    n'.vx * n'.vx + n'.vy * n'.vy ≤ MAX_VELOCITY * MAX_VELOCITY := by
  obtain ⟨speed, ⟨hpos, hsq⟩, rfl⟩ := h
  rw [speedSq_eq] at hsq
  set vx1 := (n.vx + n.ax * TIME_STEP) * DAMPING with hvx1
  set vy1 := (n.vy + n.ay * TIME_STEP) * DAMPING with hvy1
  rw [integrateNode_vx, integrateNode_vy, ← hvx1, ← hvy1]
  by_cases hc : MAX_VELOCITY < speed
  · rw [if_pos hc, if_pos hc]
    exact le_of_eq (clamp_magnitude (ne_of_gt (speed_pos_of_clamp hc)) hsq)
  · rw [if_neg hc, if_neg hc]
    rw [← hsq]
    exact mul_self_le_mul_self hpos (le_of_not_lt hc)

theorem stepRel_velocity_bound {w h : ℚ} {s s' : PState} (hs : StepRel w h s s') :
    ∀ n' ∈ s'.nodes, n'.vx * n'.vx + n'.vy * n'.vy ≤ MAX_VELOCITY * MAX_VELOCITY := by
  intro n' hmem
  obtain ⟨i, hget⟩ := List.mem_iff_get?.mp hmem
  obtain ⟨ns2, ns3, ns5, tension, _, _, _, hi, _, _, _⟩ := hs
  have hilt : i < s'.nodes.length := (List.get?_eq_some.mp hget).1
  have hilt5 : i < ns5.length := by rw [← hi.1]; exact hilt
  obtain ⟨n, hget5⟩ : ∃ n, ns5.get? i = some n := ⟨_, List.get?_eq_get hilt5⟩
  obtain ⟨n'', hrel, hget''⟩ := hi.2 i n hget5
  have hnn : n'' = n' := by
    rw [hget''] at hget
    exact Option.some.inj hget
  subst hnn
  exact integrate_vel_bound hrel

theorem stepRel_framePres {w h : ℚ} {s s' : PState} (hs : StepRel w h s s') :
    FramePres s.nodes s'.nodes := by
  obtain ⟨ns2, ns3, ns5, tension, hc, hh, hsw, hi, _, _, _⟩ := hs
  exact framePres_trans (framePres_resetAccel s.nodes) <|
    framePres_trans (framePres_coulomb hc) <|
      framePres_trans (framePres_hookeFold hh) <|
        framePres_trans (framePres_boundary w h ns3) <|
          framePres_trans (framePres_shock hsw) (framePres_integrate hi)

theorem coulomb_singleton (n : Node) : CoulombPhase [n] [n] := by
  refine ⟨rfl, fun i m hget => ?_⟩
  cases i with
  | zero =>
    obtain rfl : n = m := Option.some.inj hget
    exact ⟨0, 0, SqSum.nil, by simp⟩
  | succ i => simp [List.get?] at hget

theorem shockPhase_nil (ns : List Node) : ShockPhase [] ns ns := by
  refine ⟨rfl, fun i n hget => ⟨0, 0, SqSum.nil, ?_⟩⟩
  simpa using hget

theorem integrateNode_static {n : Node} (hvx : n.vx = 0) (hvy : n.vy = 0)
    (hax : n.ax = 0) (hay : n.ay = 0) : integrateNode n 0 = n := by
  obtain ⟨nid, nty, nx, ny, nst, nlb, nvx, nvy, nax, nay, nm⟩ := n
  simp only at hvx hvy hax hay
  subst hvx hvy hax hay
  simp [integrateNode, TIME_STEP, DAMPING, MAX_VELOCITY]

theorem speedSq_static {n : Node} (hvx : n.vx = 0) (hvy : n.vy = 0)
    (hax : n.ax = 0) (hay : n.ay = 0) : speedSq n = 0 := by
  rw [speedSq_eq, hvx, hvy, hax, hay]
  ring

theorem integrate_static_singleton {n : Node} (hvx : n.vx = 0) (hvy : n.vy = 0)
    (hax : n.ax = 0) (hay : n.ay = 0) : IntegratePhase [n] [n] := by
  refine ⟨rfl, fun i m hget => ?_⟩
  cases i with
  | zero =>
    obtain rfl : n = m := Option.some.inj hget
    refine ⟨n, ⟨0, ⟨le_refl 0, ?_⟩, (integrateNode_static hvx hvy hax hay).symm⟩, rfl⟩
    rw [speedSq_static hvx hvy hax hay]
    ring
  | succ i => simp [List.get?] at hget

theorem boundaryForces_inside {w h : ℚ} {n : Node}
    (h1 : ¬ n.x < 50) (h2 : ¬ n.x > w - 50) (h3 : ¬ n.y < 50) (h4 : ¬ n.y > h - 50) :
    calculateBoundaryForces w h n = (0, 0) := by
  unfold calculateBoundaryForces
  simp only [if_neg h1, if_neg h2, if_neg h3, if_neg h4]
  norm_num

theorem boundaryPhase_inside {w h : ℚ} {n : Node}
    (h1 : ¬ n.x < 50) (h2 : ¬ n.x > w - 50) (h3 : ¬ n.y < 50) (h4 : ¬ n.y > h - 50) :
    boundaryPhase w h [n] = [n] := by
  simp [boundaryPhase, boundaryForces_inside h1 h2 h3 h4]

theorem resetAccel_exState : resetAccel exState.nodes = exState.nodes := by
  simp [resetAccel, exState, initState, exInit, mkNode]

theorem step_example : StepRel 1000 700 exState exState := by
  refine ⟨exState.nodes, exState.nodes, exState.nodes, 0, ?_, ?_, ?_, ?_, rfl, rfl, rfl⟩
  · rw [resetAccel_exState]
    exact coulomb_singleton _
  · exact HookeFold.nil _ _
  · have hb : boundaryPhase 1000 700 exState.nodes = exState.nodes := by
      have : exState.nodes = [mkNode exInit] := rfl
      rw [this]
      refine boundaryPhase_inside ?_ ?_ ?_ ?_ <;> norm_num [mkNode, exInit]
    rw [hb]
    exact shockPhase_nil _
  · have : exState.nodes = [mkNode exInit] := rfl
    rw [this]
    exact integrate_static_singleton rfl rfl rfl rfl

theorem randomizeFrom_mass (rand : Nat → ℚ) (i : Nat) (ns : List Node) :
    ∀ n ∈ randomizeFrom rand i ns, n.mass = 1 + n.stress * (1/2) := by
  induction ns generalizing i with
  | nil => intro n hmem; simp [randomizeFrom] at hmem
  | cons m ns ih =>
    intro n hmem
    rcases List.mem_cons.mp hmem with hhead | htail
    · subst hhead; rfl
    · exact ih (i + 1) n htail

/-! ### Claim theorems -/

/-- C3: after any number of simulation steps from a freshly constructed
state, every node's end-of-step velocity magnitude is at most the
configured cap `MAX_VELOCITY = 15`; stated equivalently on squares,
`vx·vx + vy·vy ≤ 15·15`. -/
theorem velocity_always_clamped (w h : ℚ) (ns : List InitNode) (es : List Edge)
    (s : PState) (hreach : Reachable w h (initState ns es) s) :
    ∀ n ∈ s.nodes, n.vx * n.vx + n.vy * n.vy ≤ MAX_VELOCITY * MAX_VELOCITY := by
  induction hreach with
  | refl =>
    intro n hmem
    simp only [initState] at hmem
    obtain ⟨n0, -, rfl⟩ := List.mem_map.mp hmem
    norm_num [mkNode, MAX_VELOCITY]
  | tail _ hbc _ => exact stepRel_velocity_bound hbc

/-- Witness for C3: the single-node example state, after one concrete
simulation step, has its node's squared speed within the cap. -/
theorem velocity_always_clamped_witness :
    (mkNode exInit).vx * (mkNode exInit).vx + (mkNode exInit).vy * (mkNode exInit).vy
      ≤ MAX_VELOCITY * MAX_VELOCITY :=
  velocity_always_clamped 1000 700 [exInit] [] exState
    (Relation.ReflTransGen.single step_example) (mkNode exInit)
    (by simp [exState, initState])

/-- C10: a single simulation step leaves the edge list unchanged
(membership and endpoints), keeps the node list's length, and leaves
every node's id, type, stress, mass and label unchanged; only positions,
velocities, accelerations, the published statistics and the shockwave
set are written. -/
theorem step_frame_effect {w h : ℚ} {s s' : PState} (hs : StepRel w h s s') :
    s'.edges = s.edges ∧ s'.nodes.length = s.nodes.length ∧
    ∀ i n, s.nodes.get? i = some n →
      ∃ n', s'.nodes.get? i = some n' ∧ n'.id = n.id ∧ n'.type = n.type ∧
        n'.stress = n.stress ∧ n'.mass = n.mass ∧ n'.label = n.label := by
  have hfp := stepRel_framePres hs
  obtain ⟨ns2, ns3, ns5, tension, -, -, -, -, hedges, -, -⟩ := hs
  refine ⟨hedges, hfp.1, fun i n hget => ?_⟩
  obtain ⟨n', hget', hp⟩ := hfp.2 i n hget
  exact ⟨n', hget', hp.1, hp.2.1, hp.2.2.1, hp.2.2.2.1, hp.2.2.2.2⟩

/-- Witness for C10: the frame conditions evaluated on the concrete
one-node step `step_example`, instantiated at node index 0. -/
theorem step_frame_effect_witness :
    exState.edges = exState.edges ∧ exState.nodes.length = exState.nodes.length ∧
    ∃ n', exState.nodes.get? 0 = some n' ∧ n'.id = (mkNode exInit).id ∧
      n'.type = (mkNode exInit).type ∧ n'.stress = (mkNode exInit).stress ∧
      n'.mass = (mkNode exInit).mass ∧ n'.label = (mkNode exInit).label := by
  obtain ⟨h1, h2, h3⟩ := step_frame_effect step_example
  exact ⟨h1, h2, h3 0 (mkNode exInit) rfl⟩

/-- C6: the derived-mass invariant `mass = 1 + stress * 0.5` holds after
construction, is preserved by every simulation step, and is
re-established by `randomizeStress`; and together with nonnegative
stresses it forces `mass ≥ 1`. -/
theorem mass_stress_coupling :
    (∀ ns es, MassInv (initState ns es)) ∧
    (∀ w h s s', StepRel w h s s' → MassInv s → MassInv s') ∧
    (∀ rand s, MassInv (randomizeStress rand s)) ∧
    (∀ s, MassInv s → (∀ n ∈ s.nodes, 0 ≤ n.stress) → ∀ n ∈ s.nodes, 1 ≤ n.mass) := by
  refine ⟨?_, ?_, ?_, ?_⟩
  · intro ns es n hmem
    simp only [initState] at hmem
    obtain ⟨n0, -, rfl⟩ := List.mem_map.mp hmem
    rfl
  · intro w h s s' hstep hinv n' hmem
    have hfp := stepRel_framePres hstep
    obtain ⟨i, hget⟩ := List.mem_iff_get?.mp hmem
    have hilt : i < s'.nodes.length := (List.get?_eq_some.mp hget).1
    have hilt0 : i < s.nodes.length := by rw [← hfp.1]; exact hilt
    obtain ⟨n, hget0⟩ : ∃ n, s.nodes.get? i = some n := ⟨_, List.get?_eq_get hilt0⟩
    obtain ⟨n'', hget'', hp⟩ := hfp.2 i n hget0
    have hnn : n'' = n' := by
      rw [hget''] at hget
      exact Option.some.inj hget
    subst hnn
    have hn : n ∈ s.nodes := List.get?_mem hget0
    rw [hp.2.2.2.1, hp.2.2.1]
    exact hinv n hn
  · intro rand s n hmem
    exact randomizeFrom_mass rand 0 s.nodes n hmem
  · intro s hinv hst n hmem
    have := hinv n hmem
    have := hst n hmem
    rw [hinv n hmem]
    linarith

/-- Witness for C6, instantiating all three phases of the invariant on
concrete states: after a concrete step from the constructed one-node
state, after a concrete `randomizeStress`, and the `mass ≥ 1` bound. -/
theorem mass_stress_coupling_witness :
    MassInv exState ∧ MassInv (randomizeStress (fun _ => 1/3) exState) ∧
    1 ≤ (mkNode exInit).mass := by
  refine ⟨?_, ?_, ?_⟩
  · exact mass_stress_coupling.2.1 1000 700 exState exState step_example
      (mass_stress_coupling.1 [exInit] [])
  · exact mass_stress_coupling.2.2.1 (fun _ => 1/3) exState
  · refine mass_stress_coupling.2.2.2 exState (mass_stress_coupling.1 [exInit] [])
      ?_ (mkNode exInit) (by simp [exState, initState])
    intro n hmem
    simp only [exState, initState, List.map, List.mem_singleton] at hmem
    subst hmem
    norm_num [mkNode, exInit]

/-- C7: the integration pipeline applies, in order, acceleration
(`v += a·dt` with `dt = TIME_STEP = 0.016`), damping (`v *= 0.92`), the
velocity clamp (a positive rescale to magnitude exactly `MAX_VELOCITY`
when the damped speed exceeds it, identity otherwise — so direction is
preserved), and only then the position update `x += v·dt` using the new
velocity. -/
theorem integration_pipeline (n n' : Node) (h : IntegrateRel n n') :
    ∃ vx1 vy1 speed c,
      vx1 = (n.vx + n.ax * TIME_STEP) * DAMPING ∧
      vy1 = (n.vy + n.ay * TIME_STEP) * DAMPING ∧
      IsSqrt (vx1 * vx1 + vy1 * vy1) speed ∧
      0 < c ∧ n'.vx = c * vx1 ∧ n'.vy = c * vy1 ∧
      (¬ MAX_VELOCITY < speed → c = 1) ∧
      (MAX_VELOCITY < speed → c = MAX_VELOCITY / speed ∧
        n'.vx * n'.vx + n'.vy * n'.vy = MAX_VELOCITY * MAX_VELOCITY) ∧
      n'.x = n.x + n'.vx * TIME_STEP ∧
      n'.y = n.y + n'.vy * TIME_STEP := by
  obtain ⟨speed, hsq, rfl⟩ := h
  have hsq' : speed * speed
      = (n.vx + n.ax * TIME_STEP) * DAMPING * ((n.vx + n.ax * TIME_STEP) * DAMPING)
        + (n.vy + n.ay * TIME_STEP) * DAMPING * ((n.vy + n.ay * TIME_STEP) * DAMPING) := by
    rw [hsq.2, speedSq_eq]
  by_cases hc : MAX_VELOCITY < speed
  · refine ⟨_, _, speed, MAX_VELOCITY / speed, rfl, rfl, ⟨hsq.1, hsq'.symm ▸ hsq.2.trans (speedSq_eq n)⟩,
      ?_, ?_, ?_, fun h' => absurd hc h', fun _ => ⟨rfl, ?_⟩, integrateNode_x n speed, integrateNode_y n speed⟩
    · exact div_pos (by norm_num [MAX_VELOCITY]) (speed_pos_of_clamp hc)
    · rw [integrateNode_vx, if_pos hc]; ring
    · rw [integrateNode_vy, if_pos hc]; ring
    · rw [integrateNode_vx, integrateNode_vy, if_pos hc, if_pos hc]
      exact clamp_magnitude (ne_of_gt (speed_pos_of_clamp hc)) hsq'
  · refine ⟨_, _, speed, 1, rfl, rfl, ⟨hsq.1, hsq.2.trans (speedSq_eq n)⟩,
      one_pos, ?_, ?_, fun _ => rfl, fun h' => absurd h' hc, integrateNode_x n speed, integrateNode_y n speed⟩
    · rw [integrateNode_vx, if_neg hc, one_mul]
    · rw [integrateNode_vy, if_neg hc, one_mul]

/-- Witness for C7: a node whose damped velocity is `(12, 16)` (speed 20),
so the clamp branch fires and rescales it to magnitude 15. -/
theorem integration_pipeline_witness :
    ∃ vx1 vy1 speed c,
      vx1 = (exNode7.vx + exNode7.ax * TIME_STEP) * DAMPING ∧
      vy1 = (exNode7.vy + exNode7.ay * TIME_STEP) * DAMPING ∧
      IsSqrt (vx1 * vx1 + vy1 * vy1) speed ∧
      0 < c ∧ (integrateNode exNode7 20).vx = c * vx1 ∧ (integrateNode exNode7 20).vy = c * vy1 ∧
      (¬ MAX_VELOCITY < speed → c = 1) ∧
      (MAX_VELOCITY < speed → c = MAX_VELOCITY / speed ∧
        (integrateNode exNode7 20).vx * (integrateNode exNode7 20).vx
          + (integrateNode exNode7 20).vy * (integrateNode exNode7 20).vy
          = MAX_VELOCITY * MAX_VELOCITY) ∧
      (integrateNode exNode7 20).x = exNode7.x + (integrateNode exNode7 20).vx * TIME_STEP ∧
      (integrateNode exNode7 20).y = exNode7.y + (integrateNode exNode7 20).vy * TIME_STEP :=
  integration_pipeline exNode7 (integrateNode exNode7 20)
    ⟨20, ⟨by norm_num, by norm_num [speedSq_eq, exNode7, c5Node, TIME_STEP, DAMPING]⟩, rfl⟩

theorem reset_zip (l : List Node) (init : List InitNode) (h : l.length = init.length) :
    (List.zipWith (fun n n0 => { n with x := n0.x, y := n0.y, vx := 0, vy := 0 }) l init).map
        (fun n => (n.x, n.y, n.vx, n.vy))
      = init.map (fun n0 => (n0.x, n0.y, (0 : ℚ), (0 : ℚ))) := by
  induction l generalizing init with
  | nil =>
    cases init with
    | nil => rfl
    | cons n0 init => simp at h
  | cons n l ih =>
    cases init with
    | nil => simp at h
    | cons n0 init =>
      rw [List.zipWith_cons_cons, List.map_cons, List.map_cons]
      exact congrArg (List.cons _) (ih init (by simpa using h))

theorem initState_proj (init : List InitNode) (es : List Edge) :
    (initState init es).nodes.map (fun n => (n.x, n.y, n.vx, n.vy))
      = init.map (fun n0 => (n0.x, n0.y, (0 : ℚ), (0 : ℚ))) := by
  rw [initState, List.map_map]
  rfl

/-- C9: after the Reset Network handler runs, every node's position and
velocity equal its construction-time values exactly, and the shockwave
set is empty. -/
theorem reset_restores_construction (init : List InitNode) (es : List Edge) (s : PState)
    (hlen : s.nodes.length = init.length) :
    (resetNetwork init s).nodes.map (fun n => (n.x, n.y, n.vx, n.vy))
      = (initState init es).nodes.map (fun n => (n.x, n.y, n.vx, n.vy)) ∧
    (resetNetwork init s).shockwaves = [] := by
  refine ⟨?_, rfl⟩
  rw [initState_proj]
  exact reset_zip s.nodes init hlen

/-- Witness for C9: a scrambled one-node state (moved node, nonzero
velocity, one live shockwave) is restored to its construction data. -/
theorem reset_restores_construction_witness :
    (resetNetwork [exInit] scrambled).nodes.map (fun n => (n.x, n.y, n.vx, n.vy))
      = (initState [exInit] []).nodes.map (fun n => (n.x, n.y, n.vx, n.vy)) ∧
    (resetNetwork [exInit] scrambled).shockwaves = [] :=
  reset_restores_construction [exInit] [] scrambled rfl

/-- C1 (code defect): the pruning filter on line 256 tests the stored,
undecayed `sw.force` (`sw.force > 0.1 && sw.age < 300`), never the decayed
magnitude `force * SHOCKWAVE_DECAY ^ age`.  A shockwave of initial force
1000 whose decayed magnitude has already fallen below the 0.1 threshold
(age 200: `1000 * 0.95^201 < 0.1`) survives the step; removal happens only
when the age reaches 300. -/
theorem shockwave_pruning_ignores_decay :
    stepShockwaves [⟨0, 0, 1000, 200⟩] = [⟨0, 0, 1000, 201⟩] ∧
    (1000 : ℚ) * SHOCKWAVE_DECAY ^ 201 < 1/10 ∧
    stepShockwaves [⟨0, 0, 1000, 299⟩] = [] := by
  refine ⟨?_, ?_, ?_⟩
  · simp only [stepShockwaves, List.map_cons, List.map_nil, List.filter]
    norm_num
  · norm_num [SHOCKWAVE_DECAY]
  · simp only [stepShockwaves, List.map_cons, List.map_nil, List.filter]
    norm_num

/-- C2 (code defect): for an edge whose endpoints are at exactly the same
position, the spring computation has no guard: the distance is 0 and the
source divides the displacement by it (`0/0` in JS), producing non-finite
(NaN) force components — modelled as `none`.  No finite "no force" result
is produced, contrary to the claim. -/
theorem hooke_zero_distance_not_finite (source target : Node)
    (hx : source.x = target.x) (hy : source.y = target.y)
    (d : ℚ) (hd : IsSqrt (hookeSq source target) d) :
    calculateHookeAttraction source target d = none := by
  have hsq0 : hookeSq source target = 0 := by
    unfold hookeSq
    rw [hx, hy]
    ring
  have hd0 : d = 0 := isSqrt_zero (hsq0 ▸ hd)
  subst hd0
  unfold calculateHookeAttraction
  simp

/-- Witness for C2's defect theorem: the concrete coincident pair at
`(250, 250)`. -/
theorem hooke_zero_distance_not_finite_witness :
    calculateHookeAttraction cnA cnB 0 = none :=
  hooke_zero_distance_not_finite cnA cnB rfl rfl 0
    ⟨le_refl 0, by norm_num [hookeSq, cnA, cnB, c5Node]⟩

/-- C8 (code defect): `simulationStep` contains no finiteness detection or
reset.  Once a node's acceleration is non-finite (as produced by the
zero-distance edge between `cnC` and `cnD`), the integrator propagates it:
the damped velocity is `NaN`, the clamp does not fire (a JS comparison
against `NaN` is `false`), and the node's position becomes non-finite —
nothing restores a safe default. -/
theorem nan_propagates_without_reset :
    calculateHookeAttraction cnC cnD 0 = none ∧
    IsSqrtN none none ∧
    vgt none (fin MAX_VELOCITY) = false ∧
    (integrateNodeN corruptN none).vx = none ∧
    (integrateNodeN corruptN none).vy = none ∧
    (integrateNodeN corruptN none).x = none ∧
    (integrateNodeN corruptN none).y = none := by
  refine ⟨?_, trivial, rfl, rfl, rfl, rfl, rfl⟩
  unfold calculateHookeAttraction
  simp

theorem coulombPair_fst (node other : Node) (d : ℚ) :
    (coulombPair node other d).1
      = (node.x - other.x) / (d + 1)
        * (COULOMB_CONSTANT * (1 + node.stress * STRESS_THRESHOLD) / ((d + 1) * (d + 1))) := rfl

theorem coulombPair_snd (node other : Node) (d : ℚ) :
    (coulombPair node other d).2
      = (node.y - other.y) / (d + 1)
        * (COULOMB_CONSTANT * (1 + node.stress * STRESS_THRESHOLD) / ((d + 1) * (d + 1))) := rfl

/-- C5 counterexample: for the pair `c5Node` (at the origin, stress 0)
and `c5Other` (at `(3,4)`, true distance 5), the Euclidean magnitude of
the repulsion contribution is *not* `k·(1+stress·0.7)/(distance+1)²`
(compared on squares): the code scales the force scalar by the non-unit
vector `(dx/(d+1), dy/(d+1))`, losing a factor `d/(d+1)`. -/
theorem coulomb_magnitude_counterexample :
    IsSqrt (coulombSq c5Node c5Other) 5 ∧
    (coulombPair c5Node c5Other 5).1 * (coulombPair c5Node c5Other 5).1
      + (coulombPair c5Node c5Other 5).2 * (coulombPair c5Node c5Other 5).2
      ≠ COULOMB_CONSTANT * (1 + c5Node.stress * STRESS_THRESHOLD) / ((5 + 1) * (5 + 1))
        * (COULOMB_CONSTANT * (1 + c5Node.stress * STRESS_THRESHOLD) / ((5 + 1) * (5 + 1))) := by
  constructor
  · exact ⟨by norm_num, by norm_num [coulombSq, c5Node, c5Other]⟩
  · rw [coulombPair_fst, coulombPair_snd]
    norm_num [c5Node, c5Other, COULOMB_CONSTANT, STRESS_THRESHOLD]

/-- C5 amended: the per-pair repulsion contribution is the positive
multiple `k·stressFactor/(d+1)³` of the displacement vector from the
other node to this node (so it is directed away from the other node,
using this node's own stress), and its squared Euclidean magnitude is
`(k·stressFactor·d/(d+1)³)²` — the claimed scalar `k·stressFactor/(d+1)²`
carries the extra factor `d/(d+1)` once projected on the code's
pseudo-unit direction vector. -/
theorem coulomb_pair_characterisation (node other : Node) (d : ℚ)
    (hd : IsSqrt (coulombSq node other) d) (hpos : 0 < d) (hs : 0 ≤ node.stress) :
    ∃ c : ℚ, 0 < c ∧
      (coulombPair node other d).1 = c * (node.x - other.x) ∧
      (coulombPair node other d).2 = c * (node.y - other.y) ∧
      (coulombPair node other d).1 * (coulombPair node other d).1
        + (coulombPair node other d).2 * (coulombPair node other d).2
        = COULOMB_CONSTANT * (1 + node.stress * STRESS_THRESHOLD) * d / ((d+1) * (d+1) * (d+1))
          * (COULOMB_CONSTANT * (1 + node.stress * STRESS_THRESHOLD) * d / ((d+1) * (d+1) * (d+1))) := by
  have hd1 : (0 : ℚ) < d + 1 := by linarith
  have hd1' : d + 1 ≠ 0 := ne_of_gt hd1
  have hsF : (0 : ℚ) < 1 + node.stress * STRESS_THRESHOLD := by
    have hnn : (0 : ℚ) ≤ node.stress * STRESS_THRESHOLD :=
      mul_nonneg hs (by norm_num [STRESS_THRESHOLD])
    linarith
  have hdd : d * d
      = (node.x - other.x) * (node.x - other.x) + (node.y - other.y) * (node.y - other.y) :=
    hd.2
  refine ⟨COULOMB_CONSTANT * (1 + node.stress * STRESS_THRESHOLD) / ((d+1) * (d+1) * (d+1)),
    ?_, ?_, ?_, ?_⟩
  · apply div_pos
    · exact mul_pos (by norm_num [COULOMB_CONSTANT]) hsF
    · exact mul_pos (mul_pos hd1 hd1) hd1
  · rw [coulombPair_fst]
    field_simp
    ring
  · rw [coulombPair_snd]
    field_simp
    ring
  · rw [coulombPair_fst, coulombPair_snd]
    calc (node.x - other.x) / (d + 1)
          * (COULOMB_CONSTANT * (1 + node.stress * STRESS_THRESHOLD) / ((d + 1) * (d + 1)))
          * ((node.x - other.x) / (d + 1)
            * (COULOMB_CONSTANT * (1 + node.stress * STRESS_THRESHOLD) / ((d + 1) * (d + 1))))
        + (node.y - other.y) / (d + 1)
          * (COULOMB_CONSTANT * (1 + node.stress * STRESS_THRESHOLD) / ((d + 1) * (d + 1)))
          * ((node.y - other.y) / (d + 1)
            * (COULOMB_CONSTANT * (1 + node.stress * STRESS_THRESHOLD) / ((d + 1) * (d + 1))))
        = ((node.x - other.x) * (node.x - other.x) + (node.y - other.y) * (node.y - other.y))
            * (COULOMB_CONSTANT * (1 + node.stress * STRESS_THRESHOLD)
              * (COULOMB_CONSTANT * (1 + node.stress * STRESS_THRESHOLD)))
            / ((d+1) * (d+1) * (d+1) * (d+1) * (d+1) * (d+1)) := by
          field_simp
          ring
      _ = d * d
            * (COULOMB_CONSTANT * (1 + node.stress * STRESS_THRESHOLD)
              * (COULOMB_CONSTANT * (1 + node.stress * STRESS_THRESHOLD)))
            / ((d+1) * (d+1) * (d+1) * (d+1) * (d+1) * (d+1)) := by
          rw [← hdd]
      _ = COULOMB_CONSTANT * (1 + node.stress * STRESS_THRESHOLD) * d / ((d+1) * (d+1) * (d+1))
            * (COULOMB_CONSTANT * (1 + node.stress * STRESS_THRESHOLD) * d
              / ((d+1) * (d+1) * (d+1))) := by
          field_simp
          ring

/-- Witness for the amended C5 theorem: node at `(3,4)`, other at the
origin, true distance 5. -/
theorem coulomb_pair_characterisation_witness :
    ∃ c : ℚ, 0 < c ∧
      (coulombPair c5Node' c5Node 5).1 = c * (c5Node'.x - c5Node.x) ∧
      (coulombPair c5Node' c5Node 5).2 = c * (c5Node'.y - c5Node.y) ∧
      (coulombPair c5Node' c5Node 5).1 * (coulombPair c5Node' c5Node 5).1
        + (coulombPair c5Node' c5Node 5).2 * (coulombPair c5Node' c5Node 5).2
        = COULOMB_CONSTANT * (1 + c5Node'.stress * STRESS_THRESHOLD) * 5 / ((5+1) * (5+1) * (5+1))
          * (COULOMB_CONSTANT * (1 + c5Node'.stress * STRESS_THRESHOLD) * 5
            / ((5+1) * (5+1) * (5+1))) :=
  coulomb_pair_characterisation c5Node' c5Node 5
    ⟨by norm_num, by norm_num [coulombSq, c5Node', c5Node]⟩
    (by norm_num) (by norm_num [c5Node', c5Node])

/-- C4 (code defect): releasing the dragged node appends exactly one new
shockwave, but its origin is the position stored in the mouse-down
snapshot (`draggingNode`, captured by `handleNodeMouseDown` and never
updated during the drag), not the node's current position at release
time.  Dragging node 0 from `(400,100)` to `(500,300)` and releasing
leaves the node at `(500,300)` while the release shockwave is appended at
`(400,100)`. -/
theorem release_shockwave_stale_origin :
    (dragMove.phys.nodes.map fun n => (n.x, n.y)) = [((500 : ℚ), (300 : ℚ))] ∧
    dragUp.phys.nodes = dragMove.phys.nodes ∧
    dragUp.phys.shockwaves = dragMove.phys.shockwaves ++ [⟨400, 100, 2000, 0⟩] ∧
    dragMove.phys.shockwaves = [⟨500, 300, 500, 0⟩] ∧
    ((400 : ℚ), (100 : ℚ)) ≠ ((500 : ℚ), (300 : ℚ)) := by
  refine ⟨?_, ?_, ?_, ?_, ?_⟩
  · simp only [dragMove, dragDown, dragInit, handleMouseMove, handleNodeMouseDown,
      setNodePos, modifyAt, triggerShockwave, exState, initState, mkNode, exInit,
      List.findIdx?, List.map]
    norm_num
  · simp only [dragUp, handleMouseUp, dragMove, dragDown, dragInit, handleMouseMove,
      handleNodeMouseDown, triggerShockwave]
  · simp only [dragUp, handleMouseUp, dragMove, dragDown, dragInit, handleMouseMove,
      handleNodeMouseDown, triggerShockwave]
  · simp only [dragMove, dragDown, dragInit, handleMouseMove, handleNodeMouseDown,
      triggerShockwave, exState, initState]
    norm_num
  · norm_num

end SupplyChainGraph

